import Mathlib

/-!
Verification development for the OASIS+ Contractor Explorer
(`oasis_explorer_app.py`): a shallow embedding of the workbook
normalizer / reconciler (`load_oasis_excel`) and of the filter
predicate evaluator (`apply_filters`), together with theorems
settling the specification claims about them.

Tables (`pandas.DataFrame`) are embedded as a list of column names plus
a list of rows, each row an association list from column name to an
optional string cell; `none` is the missing marker (`NaN` / `pd.NA`).
String operations are modelled structurally over the character list of
a `String`, so that every definition evaluates inside the kernel.
-/

namespace Oasis

/-- A cell value: `none` is the missing marker (pandas `NaN` / `pd.NA`). -/
abbrev Cell := Option String

/-- A row: an association list from column name to cell. -/
abbrev Row := List (String × Cell)

/-- A table: `pandas.DataFrame` with named columns.  Every operation below
rebuilds or preserves the alignment between `cols` and the keys bound in
each row. -/
structure Frame where
  cols : List String
  rows : List Row

/-- A workbook: its sheets in order, each a name paired with the frame that
`pd.read_excel` returns for it.  Excel decoding itself (including the
`header=1` offset used for the contract sheet) is outside the embedding. -/
abbrev Workbook := List (String × Frame)

/-- Python `str.strip()` on the characters of a string: remove leading and
trailing whitespace. -/
def pyStrip (s : String) : String :=
  ⟨((s.data.dropWhile Char.isWhitespace).reverse.dropWhile Char.isWhitespace).reverse⟩

/-- Python `str.lower()`: lowercase each character. -/
def pyLower (s : String) : String :=
  ⟨s.data.map Char.toLower⟩

/-- pandas `astype(str)` on one cell: a present string is unchanged and the
missing marker is rendered as the literal text "nan" (the `str` form of a
float `NaN`; a `pd.NA` cell would render as "<NA>", which behaves the same
way for every claim below). -/
def cellToStr (v : Cell) : String :=
  match v with
  | some s => s
  | none => "nan"

/-- Embedding of `Series.str.replace(".0$", "", regex=True)` on one value.  The pattern
`.0$` matches ANY character other than a newline followed by the digit `0`
at the end of the string, because the dot is an unescaped regex wildcard;
the match is removed.  (The Python-regex corner case of `$` also matching
just before a final newline is not modelled; no value in any claim contains
a newline.) -/
def replaceDot0End (s : String) : String :=
  match s.data.reverse with
  | c0 :: c1 :: rest => if c0 = '0' ∧ c1 ≠ '\n' then ⟨rest.reverse⟩ else s
  | _ => s

/-- The per-cell cleanup the source applies to the `NAICS` and `SIN`
columns: `.astype(str).str.replace(".0$", "", regex=True).str.strip()`.
Note that `astype(str)` turns a missing cell into the present text "nan". -/
def cleanNumStr (v : Cell) : Cell :=
  some (pyStrip (replaceDot0End (cellToStr v)))

/-- Modelled from the spec: the trailing-anchor cleanup rule the
specification describes for `Naics` / `Sin` (and for the join keys):
convert to string, strip `".0"` only when it is a literal two-character
suffix, then strip surrounding whitespace.  The source instead uses the
wildcard pattern of `replaceDot0End`; this definition exists only to state
the specified behavior. -/
def specCleanNumStr (v : Cell) : Cell :=
  some (pyStrip (match (pyStrip (cellToStr v)).data.reverse with
    | c0 :: c1 :: rest => if c0 = '0' ∧ c1 = '.' then ⟨rest.reverse⟩ else pyStrip (cellToStr v)
    | _ => pyStrip (cellToStr v)))

/-- Modelled from the spec: the join-key normalization the specification
describes (string form, strip a trailing literal `".0"` artifact, strip
surrounding whitespace).  The source applies no normalization at all to the
join keys; this definition exists only to state the specified behavior. -/
def specNormalizeKey (v : Cell) : String :=
  match specCleanNumStr v with
  | some s => s
  | none => ""

/-- Substring search over character lists: `need` occurs contiguously in
`hay`. -/
def containsSub (hay need : List Char) : Bool :=
  need.isPrefixOf hay ||
    match hay with
    | [] => false
    | _ :: t => containsSub t need

/-- Substring test between strings.  pandas `Series.str.contains`
interprets its pattern argument as a regular expression; on a pattern free
of regex metacharacters (every search string appearing in the claims) a
regex match is exactly a substring occurrence, which is what is modelled
here. -/
def strContains (hay need : String) : Bool :=
  containsSub hay.data need.data

/-- True when a string contains no regex metacharacter, so that pandas
`str.contains` (regex matching) coincides with plain substring search. -/
def regexFreeText (s : String) : Bool :=
  s.data.all (fun c =>
    !(c ∈ ['.', '^', '$', '*', '+', '?', '[', ']', '(', ')', '|', '\\',
           Char.ofNat 123, Char.ofNat 125]))

/-- Cell lookup in a row; an absent binding reads as the missing marker. -/
def Row.cell (r : Row) (c : String) : Cell :=
  match r.find? (fun p => decide (p.1 = c)) with
  | some p => p.2
  | none => none

/-- Column presence in a row. -/
def hasCol (r : Row) (c : String) : Bool :=
  r.any (fun p => decide (p.1 = c))

/-- Column assignment inside one row: overwrite the binding if the column
is present, otherwise append it. -/
def Row.set (r : Row) (c : String) (v : Cell) : Row :=
  if hasCol r c then r.map (fun p => if p.1 = c then (p.1, v) else p)
  else r ++ [(c, v)]

/-- Rebuild a row over a given column list; columns the row does not bind
become the missing marker. -/
def Row.reindex (r : Row) (cols : List String) : Row :=
  cols.map (fun c => (c, Row.cell r c))

/-- Ordered union of column lists (order of first appearance). -/
def colUnion (acc cs : List String) : List String :=
  acc ++ cs.filter (fun c => !acc.contains c)

/-- Embedding of `pd.concat(frames, ignore_index=True)`: union of the column sets in
order of first appearance; every row is reindexed to the full column list,
absent cells becoming the missing marker. -/
def concatFrames (fs : List Frame) : Frame :=
  { cols := fs.foldl (fun acc f => colUnion acc f.cols) []
  , rows := fs.flatMap (fun f => f.rows.map (fun r =>
      Row.reindex r (fs.foldl (fun acc g => colUnion acc g.cols) []))) }

/-- Embedding of `df.columns = [c.strip() for c in df.columns]`. -/
def trimCols (f : Frame) : Frame :=
  { cols := f.cols.map pyStrip
  , rows := f.rows.map (fun r => r.map (fun p => (pyStrip p.1, p.2))) }

/-- Embedding of `df[c] = <row-wise value>`: overwrite the column if present, else
append it at the end. -/
def setColWith (f : Frame) (c : String) (g : Row → Cell) : Frame :=
  { cols := if f.cols.contains c then f.cols else f.cols ++ [c]
  , rows := f.rows.map (fun r => Row.set r c (g r)) }

/-- Embedding of `df[c] = v` with a scalar `v`. -/
def setColAll (f : Frame) (c : String) (v : Cell) : Frame :=
  setColWith f c (fun _ => v)

/-- Elementwise transform of one column (a `Series` assignment such as
`pools["NAICS"] = pools["NAICS"].astype(str)...`). -/
def mapCol (f : Frame) (c : String) (g : Cell → Cell) : Frame :=
  { cols := f.cols
  , rows := f.rows.map (fun r => r.map (fun p => if p.1 = c then (p.1, g p.2) else p)) }

/-- Embedding of `pools.merge(contracts, left_on=lk, right_on=rk, how="left",
suffixes=("", "_contract"))`: every left row is kept, paired with each
right row whose `rk` cell equals its `lk` cell (pandas also matches a
missing key to a missing key); with no match the right-side columns are
filled with the missing marker.  A right column colliding with a left
column name is exposed under the `_contract`-suffixed name. -/
def mergeLeft (l r : Frame) (lk rk : String) : Frame :=
  { cols := l.cols ++ r.cols.map (fun c => if l.cols.contains c then c ++ "_contract" else c)
  , rows := l.rows.flatMap (fun lrow =>
      if ((r.rows.filter (fun rrow => decide (Row.cell rrow rk = Row.cell lrow lk)))).isEmpty then
        [l.cols.map (fun c => (c, Row.cell lrow c)) ++
          r.cols.map (fun c => ((if l.cols.contains c then c ++ "_contract" else c), (none : Cell)))]
      else
        (r.rows.filter (fun rrow => decide (Row.cell rrow rk = Row.cell lrow lk))).map (fun rrow =>
          l.cols.map (fun c => (c, Row.cell lrow c)) ++
            r.cols.map (fun c => ((if l.cols.contains c then c ++ "_contract" else c), Row.cell rrow c)))) }

/-- The vendor-display derivation: `vendor_cols` collects, in order,
whichever of `Vendor` and `Vendor Name` exist; when nonempty,
`Vendor Display` is the row-wise backfill
`merged[vendor_cols].bfill(axis=1).iloc[:, 0]`, i.e. the first
non-missing cell among those columns (an empty string is a present value,
not a missing one, so it is NOT skipped); when no vendor column exists at
all, the whole column is the empty string. -/
def vendorDisplayStep (f : Frame) : Frame :=
  if ((if f.cols.contains "Vendor" then ["Vendor"] else []) ++
      (if f.cols.contains "Vendor Name" then ["Vendor Name"] else [])).isEmpty then
    setColAll f "Vendor Display" (some "")
  else
    setColWith f "Vendor Display" (fun r =>
      (((if f.cols.contains "Vendor" then ["Vendor"] else []) ++
        (if f.cols.contains "Vendor Name" then ["Vendor Name"] else [])).filterMap
          (fun c => Row.cell r c)).head?)

/-- The columns the source forces to exist on the merged table. -/
def guaranteedCols : List String :=
  ["UEI", "Domain", "Pool", "NAICS", "SIN", "ZIP Code", "Vendor City"]

/-- Loop body of `for col in [...]: if col not in merged.columns:
merged[col] = pd.NA`. -/
def ensureColStep (acc : Frame) (c : String) : Frame :=
  if acc.cols.contains c then acc else setColAll acc c none

/-- The guaranteed-column pass at the end of `load_oasis_excel`. -/
def ensureCols (f : Frame) : Frame :=
  guaranteedCols.foldl ensureColStep f

/-- The hard-coded pool sheet names of the source, including the literal
trailing space of "Service Disabled Veteran Owned ". -/
def pool_sheet_names : List String :=
  ["8a", "Small Business", "Woman Owned SB", "Service Disabled Veteran Owned ",
   "HUBZone", "Unrestricted"]

/-- Sheet lookup by exact name (`sheet in xls.sheet_names` followed by
`pd.read_excel(file, sheet_name=sheet)`). -/
def lookupSheet (wb : Workbook) (nm : String) : Option Frame :=
  match wb.find? (fun p => decide (p.1 = nm)) with
  | some p => some p.2
  | none => none

/-- The loaded pool frames: each hard-coded name that occurs verbatim among
the workbook sheet names is read, its column names trimmed, and a `Pool`
column set to the trimmed sheet name. -/
def poolFramesOf (wb : Workbook) : List Frame :=
  pool_sheet_names.filterMap (fun sheet =>
    match lookupSheet wb sheet with
    | some df => some (setColAll (trimCols df) "Pool" (some (pyStrip sheet)))
    | none => none)

/-- Embedding of `if "NAICS" in pools.columns: pools["NAICS"] = ...` -/
def cleanNAICS (pools : Frame) : Frame :=
  if pools.cols.contains "NAICS" then mapCol pools "NAICS" cleanNumStr else pools

/-- Embedding of `if "SIN" in pools.columns: pools["SIN"] = ...` -/
def cleanSIN (pools : Frame) : Frame :=
  if pools.cols.contains "SIN" then mapCol pools "SIN" cleanNumStr else pools

/-- The SIN/NAICS formatting cleanup block. -/
def cleanPools (pools : Frame) : Frame :=
  cleanSIN (cleanNAICS pools)

/-- One single-quote character, for building the literal error text. -/
def sq : String := ⟨[Char.ofNat 39]⟩

/-- The message of the `KeyError` raised when a join-key column is absent:
the f-string interpolates the two expected column names, each wrapped in
single quotes, and nothing else. -/
def joinKeyErrMsg : String :=
  "Expected " ++ sq ++ "Contract #" ++ sq ++ " in pool sheets and " ++ sq ++
    "Contract Number" ++ sq ++ " in contract info sheet."

/-- Embedding of `load_oasis_excel`: read the contract sheet (its absence makes
`pd.read_excel` raise, modelled as an error), trim its column names, load
and union the pool sheets, clean `NAICS` / `SIN`, check the join keys, left
join, derive `Vendor Display`, and force the guaranteed columns. -/
def load_oasis_excel (wb : Workbook) : Except String Frame :=
  match lookupSheet wb "OASIS+Contract Information" with
  | none => Except.error "Worksheet named OASIS+Contract Information not found"
  | some raw =>
    if (poolFramesOf wb).isEmpty then
      Except.error "No pool sheets found in the workbook."
    else if !((cleanPools (concatFrames (poolFramesOf wb))).cols.contains "Contract #")
        || !((trimCols raw).cols.contains "Contract Number") then
      Except.error joinKeyErrMsg
    else
      Except.ok (ensureCols (vendorDisplayStep (mergeLeft
        (cleanPools (concatFrames (poolFramesOf wb))) (trimCols raw)
        "Contract #" "Contract Number")))

/-- One free-text search term against one column of `apply_filters`: the
column must exist, and the cell — rendered by `astype(str)` (so a missing
cell becomes the present text "nan") and lowercased — must contain the
lowercased search string.  This is the mask contribution
`filtered[c].astype(str).str.lower().str.contains(s, na=False)`; the
`na=False` guard never fires because `astype(str)` has already replaced
every missing value by its string rendering. -/
def searchHit (cols : List String) (s : String) (r : Row) (c : String) : Bool :=
  cols.contains c && strContains (pyLower (cellToStr (Row.cell r c))) (pyLower s)

/-- Embedding of `Series.isin(selection)` on one cell: a missing cell is never a
member of a list of strings. -/
def isinSel (sel : List String) (v : Cell) : Bool :=
  match v with
  | some s => sel.contains s
  | none => false

/-- The free-text search block of `apply_filters` (skipped for an empty
search string; the mask is the OR of the three per-column contributions). -/
def searchFilter (df : Frame) (s : String) : Frame :=
  if s != "" then
    { cols := df.cols
    , rows := df.rows.filter (fun r =>
        searchHit df.cols s r "Vendor Display" || searchHit df.cols s r "UEI" ||
          searchHit df.cols s r "Contract Number") }
  else df

/-- One `filtered = filtered[filtered[c].isin(sel)]` block of
`apply_filters` (skipped when the selection list is empty). -/
def isinFilter (df : Frame) (c : String) (sel : List String) : Frame :=
  if !sel.isEmpty then
    { cols := df.cols, rows := df.rows.filter (fun r => isinSel sel (Row.cell r c)) }
  else df

/-- Embedding of `apply_filters`: the free-text search over `Vendor Display`, `UEI` and
`Contract Number`, then the four `isin` filters, applied in sequence. -/
def apply_filters (df : Frame) (search_text : String)
    (pools_selected domains_selected naics_selected sin_selected : List String) : Frame :=
  isinFilter (isinFilter (isinFilter (isinFilter
    (searchFilter df search_text) "Pool" pools_selected) "Domain" domains_selected)
    "NAICS" naics_selected) "SIN" sin_selected

/-- Row/column alignment: every column of the frame is bound in every row. -/
def Frame.wf (f : Frame) : Prop :=
  ∀ r ∈ f.rows, ∀ c : String, f.cols.contains c = true → hasCol r c = true

/-- Spec-side list of searched fields (under the source spellings), for the
amended claim C7. -/
def specSearchFields : List String :=
  ["Vendor Display", "UEI", "Contract Number"]

/-- Spec-side search predicate: the row passes when any of the searched
fields exists and contains the text case-insensitively. -/
def specSearchHit (cols : List String) (s : String) (r : Row) : Bool :=
  specSearchFields.any (fun c =>
    cols.contains c && strContains (pyLower (cellToStr (Row.cell r c))) (pyLower s))

/-- Error projection of the load result. -/
def errOf (e : Except String Frame) : Option String :=
  match e with
  | Except.error s => some s
  | Except.ok _ => none

/-- A contract-information sheet with a single record. -/
def contractFrame1 (ck u : String) : Frame :=
  { cols := ["Contract Number", "UEI"]
  , rows := [[("Contract Number", some ck), ("UEI", some u)]] }

/-- A contract-information sheet with two records. -/
def contractFrame2 (c1 u1 c2 u2 : String) : Frame :=
  { cols := ["Contract Number", "UEI"]
  , rows := [[("Contract Number", some c1), ("UEI", some u1)],
             [("Contract Number", some c2), ("UEI", some u2)]] }

/-- A pool sheet with a single award row carrying only the join key. -/
def poolFrame1 (pk : String) : Frame :=
  { cols := ["Contract #"], rows := [[("Contract #", some pk)]] }

/-- Workbook with one contract record (key `ck`) and one `8a` pool row
(key `pk`). -/
def wbKeys (pk ck : String) : Workbook :=
  [("OASIS+Contract Information", contractFrame1 ck "U1"), ("8a", poolFrame1 pk)]

/-- Workbook with two contract records and one `8a` pool row. -/
def wbJoin (pk c1 c2 u1 u2 : String) : Workbook :=
  [("OASIS+Contract Information", contractFrame2 c1 u1 c2 u2), ("8a", poolFrame1 pk)]

/-- Workbook whose single candidate pool sheet carries the given name. -/
def wbNamed (nm : String) : Workbook :=
  [("OASIS+Contract Information", contractFrame1 "K1" "U1"), (nm, poolFrame1 "K1")]

/-- A pool sheet carrying `Vendor` and `Vendor Name` cells. -/
def poolFrameVendor (v w : Cell) : Frame :=
  { cols := ["Contract #", "Vendor", "Vendor Name"]
  , rows := [[("Contract #", some "K1"), ("Vendor", v), ("Vendor Name", w)]] }

/-- Workbook whose pool row carries the given vendor cells. -/
def wbVendor (v w : Cell) : Workbook :=
  [("OASIS+Contract Information", contractFrame1 "K1" "U1"), ("8a", poolFrameVendor v w)]

/-- Workbook whose pool sheet has a NAICS cell with the digits 541330. -/
def wbC3 : Workbook :=
  [("OASIS+Contract Information", contractFrame1 "K1" "U1"),
   ("8a", { cols := ["Contract #", "NAICS"]
          , rows := [[("Contract #", some "K1"), ("NAICS", some "541330")]] })]

/-- Workbook whose pool sheet lacks the `Contract #` join-key column. -/
def wbC9 : Workbook :=
  [("OASIS+Contract Information", contractFrame1 "K1" "U1"),
   ("8a", { cols := ["Foo"], rows := [[("Foo", some "X")]] })]

/-- A merged-shape table whose single row is missing in every searched
field. -/
def fC10 : Frame :=
  { cols := ["Vendor Display", "UEI", "Contract Number", "Pool", "Domain", "NAICS", "SIN"]
  , rows := [[("Vendor Display", none), ("UEI", none), ("Contract Number", none),
              ("Pool", none), ("Domain", none), ("NAICS", none), ("SIN", none)]] }

/-- A merged-shape table whose single row matches a search text only in the
pool-side `Contract #` column. -/
def fC7 : Frame :=
  { cols := ["Contract #", "Vendor Display", "UEI", "Contract Number"]
  , rows := [[("Contract #", some "47QRCA25D0001"), ("Vendor Display", some ""),
              ("UEI", none), ("Contract Number", none)]] }

/-- A small merged-shape table for exercising the search filter. -/
def fC7w : Frame :=
  { cols := ["Vendor Display", "UEI", "Contract Number"]
  , rows := [[("Vendor Display", some "AEVEX Corp"), ("UEI", some "UEI1"),
              ("Contract Number", some "K1")],
             [("Vendor Display", some "Other"), ("UEI", some "UEI2"),
              ("Contract Number", some "K2")]] }

/-- The merged table of a small valid workbook (used as a witness input). -/
def mC6 : Frame :=
  (load_oasis_excel (wbKeys "K1" "K1")).toOption.getD { cols := [], rows := [] }

end Oasis

namespace Oasis

/-- C1 (counterexample): the raw pool key "47QRCA25D0001.0" and the raw
contract key "47QRCA25D0001" differ only by the trailing ".0" spreadsheet
artifact — their spec-normalized forms agree — yet the loader does NOT
match them: the single merged row carries no contract-side data (its `UEI`
is the missing marker), where the claim requires the two rows to be joined. -/
theorem C1_counterexample :
    specNormalizeKey (some "47QRCA25D0001.0") = specNormalizeKey (some "47QRCA25D0001")
    ∧ (load_oasis_excel (wbKeys "47QRCA25D0001.0" "47QRCA25D0001")).toOption.map
        (fun m => m.rows.map (fun r => Row.cell r "UEI")) = some [none] := by
  decide

/-- C2 (counterexample): a workbook sheet named "Service Disabled Veteran
Owned" (no trailing space) trims to a recognized pool name, so the claim
requires it to be loaded; the source ignores it (its hard-coded list only
contains the trailing-space spelling) and, it being the only candidate pool
sheet, the load fails with "No pool sheets found" instead of producing any
row. -/
theorem C2_counterexample :
    pyStrip "Service Disabled Veteran Owned" ∈ pool_sheet_names.map pyStrip
    ∧ errOf (load_oasis_excel (wbNamed "Service Disabled Veteran Owned"))
        = some "No pool sheets found in the workbook." := by
  decide

/-- C3 (code evaluated at the failing input): a pool NAICS cell "541330"
has no literal ".0" suffix, so the claim leaves it unchanged; the unescaped
source regex `.0$` treats the dot as a wildcard, strips the final "30",
and the merged table shows "5413".  The spec-modelled trailing-anchor rule
leaves the value intact. -/
theorem C3_bug :
    (load_oasis_excel wbC3).toOption.map (fun m => m.rows.map (fun r => Row.cell r "NAICS"))
      = some [some "5413"]
    ∧ specCleanNumStr (some "541330") = some "541330" := by
  decide

/-- C4 (counterexample): a row with `Vendor` equal to the empty string and
`Vendor Name` equal to "Other" yields `Vendor Display` "" — the backfill
skips only missing values, not empty strings — where the claim requires
"Other"; and a row with both vendor fields present but missing yields the
missing marker, where the claim requires the explicit empty string. -/
theorem C4_counterexample :
    (load_oasis_excel (wbVendor (some "") (some "Other"))).toOption.map
        (fun m => m.rows.map (fun r => Row.cell r "Vendor Display")) = some [some ""]
    ∧ (load_oasis_excel (wbVendor none none)).toOption.map
        (fun m => m.rows.map (fun r => Row.cell r "Vendor Display")) = some [none] := by
  decide

/-- C5 (counterexample): the pool key "100.0" spec-normalizes to "100",
equal to the normalized key of the contract row, so the claim (k = 1) requires
one merged row pairing the two; the loader instead emits one row whose
contract-side `Contract Number` is the missing marker, because the join
compares raw keys. -/
theorem C5_counterexample :
    specNormalizeKey (some "100.0") = specNormalizeKey (some "100")
    ∧ (load_oasis_excel (wbKeys "100.0" "100")).toOption.map
        (fun m => m.rows.map (fun r => Row.cell r "Contract Number")) = some [none] := by
  decide

/-- C7 (counterexample): a row whose only occurrence of the search text is
in the pool-side `Contract #` column is dropped by the search filter — the
source only searches `Vendor Display`, `UEI` and `Contract Number` — where
the claim requires it to pass. -/
theorem C7_counterexample :
    strContains (pyLower (cellToStr (Row.cell (fC7.rows.headD []) "Contract #")))
        (pyLower "47qrca") = true
    ∧ (apply_filters fC7 "47qrca" [] [] [] []).rows.length = 0
    ∧ fC7.rows.length = 1 := by
  decide

/-- C9 (counterexample): with the pool sheet columns being `Foo` (plus
the attached `Pool`), the raised error message is the fixed text naming the
two expected join-key columns; contrary to the claim it does not list the
column names actually found — neither "Foo" nor "Pool" occurs in it. -/
theorem C9_counterexample :
    errOf (load_oasis_excel wbC9) = some joinKeyErrMsg
    ∧ (cleanPools (concatFrames (poolFramesOf wbC9))).cols = ["Foo", "Pool"]
    ∧ strContains joinKeyErrMsg "Foo" = false
    ∧ strContains joinKeyErrMsg "Pool" = false := by
  decide

/-- C10 (code evaluated at the failing input): a row whose `Vendor
Display`, `UEI`, pool-side and contract-side contract identifiers are all
missing IS returned by searching "nan": `astype(str)` renders each missing
cell as the text "nan" before the `contains` test, so the string rendering
of the missing marker is searchable, where the claim requires such a row
never to be returned. -/
theorem C10_bug :
    fC10.rows.all (fun r =>
      decide (Row.cell r "Vendor Display" = none) && decide (Row.cell r "UEI" = none)
        && decide (Row.cell r "Contract #" = none)
        && decide (Row.cell r "Contract Number" = none)) = true
    ∧ (apply_filters fC10 "nan" [] [] [] []).rows = fC10.rows
    ∧ fC10.rows.length = 1 := by
  decide

end Oasis

namespace Oasis

/-- Rows kept by the search block, as a single filter (an empty search text
keeps everything). -/
theorem rows_searchFilter (df : Frame) (s : String) :
    (searchFilter df s).rows = df.rows.filter (fun r =>
      (s == "") || (searchHit df.cols s r "Vendor Display" || searchHit df.cols s r "UEI" ||
        searchHit df.cols s r "Contract Number")) := by
  unfold searchFilter
  cases hs : s == "" with
  | true => simp [bne, hs]
  | false => simp [bne, hs]

/-- Rows kept by one `isin` block, as a single filter (an empty selection
keeps everything). -/
theorem rows_isinFilter (df : Frame) (c : String) (sel : List String) :
    (isinFilter df c sel).rows
      = df.rows.filter (fun r => sel.isEmpty || isinSel sel (Row.cell r c)) := by
  unfold isinFilter
  cases hsel : sel.isEmpty with
  | true => simp [hsel]
  | false => simp [hsel]

/-- C8: the filter evaluator composes by logical AND — its result is the
rows of the table passing the conjunction of the search condition and the
four selection conditions, where an empty selection (or empty search text)
contributes a vacuously true conjunct and a non-empty selection keeps
exactly the rows whose field value is a member of it.  The result is thus
the intersection of the rows passing each individual condition, never the
union. -/
theorem C8_filter_composition (df : Frame) (s : String) (p d n si : List String) :
    (apply_filters df s p d n si).rows = df.rows.filter (fun r =>
      ((s == "") || (searchHit df.cols s r "Vendor Display" || searchHit df.cols s r "UEI" ||
          searchHit df.cols s r "Contract Number"))
      && (p.isEmpty || isinSel p (Row.cell r "Pool"))
      && (d.isEmpty || isinSel d (Row.cell r "Domain"))
      && (n.isEmpty || isinSel n (Row.cell r "NAICS"))
      && (si.isEmpty || isinSel si (Row.cell r "SIN"))) := by
  unfold apply_filters
  rw [rows_isinFilter, rows_isinFilter, rows_isinFilter, rows_isinFilter, rows_searchFilter,
    List.filter_filter, List.filter_filter, List.filter_filter, List.filter_filter]
  congr 1
  funext r
  cases (s == "") || (searchHit df.cols s r "Vendor Display" || searchHit df.cols s r "UEI" ||
      searchHit df.cols s r "Contract Number") <;>
    cases p.isEmpty || isinSel p (Row.cell r "Pool") <;>
    cases d.isEmpty || isinSel d (Row.cell r "Domain") <;>
    cases n.isEmpty || isinSel n (Row.cell r "NAICS") <;>
    cases si.isEmpty || isinSel si (Row.cell r "SIN") <;> rfl

/-- C7 (amended): for a non-empty, regex-metacharacter-free search text,
the search filter keeps exactly the rows in which the text occurs
case-insensitively as a substring of at least one of `Vendor Display`,
`UEI`, or the contract-side `Contract Number` — the pool-side `Contract #`
spelling is NOT searched; a field absent from the table is a non-match for
that field only. -/
theorem C7_amended (df : Frame) (s : String) (hs : s ≠ "")
    (_hlit : regexFreeText s = true) :
    (apply_filters df s [] [] [] []).rows = df.rows.filter (specSearchHit df.cols s) := by
  have hskip : ∀ (g : Frame) (c : String), isinFilter g c ([] : List String) = g :=
    fun g c => rfl
  unfold apply_filters
  rw [hskip, hskip, hskip, hskip, rows_searchFilter]
  congr 1
  funext r
  have hs2 : (s == "") = false := beq_eq_false_iff_ne.mpr hs
  simp [specSearchHit, specSearchFields, searchHit, hs2, Bool.or_assoc]

/-- C7 witness: the amended search characterization instantiated at the
search text "aevex" on a concrete table; the search is case-insensitive
("aevex" matches the row whose `Vendor Display` is "AEVEX Corp") and keeps
exactly that one row. -/
theorem C7_amended_witness :
    (apply_filters fC7w "aevex" [] [] [] []).rows
        = fC7w.rows.filter (specSearchHit fC7w.cols "aevex")
    ∧ (apply_filters fC7w "aevex" [] [] [] []).rows.length = 1
    ∧ (apply_filters fC7w "aevex" [] [] [] []).rows.map
        (fun r => Row.cell r "Vendor Display") = [some "AEVEX Corp"] := by
  exact ⟨C7_amended fC7w "aevex" (by decide) (by decide), by decide, by decide⟩

end Oasis

namespace Oasis

/-- Bridge between the boolean `List.contains` and membership. -/
theorem contains_eq_mem (l : List String) (a : String) : l.contains a = true ↔ a ∈ l :=
  List.elem_iff

/-- A row built as pairs over a generator list binds any name one of the
generators realizes. -/
theorem hasCol_map_pairs {α : Type} (xs : List α) (g : α → String × Cell) (c : String)
    (h : ∃ x ∈ xs, (g x).1 = c) : hasCol (xs.map g) c = true := by
  rcases h with ⟨x, hx, hgx⟩
  unfold hasCol
  rw [List.any_eq_true]
  exact ⟨g x, List.mem_map_of_mem _ hx, by simp [hgx]⟩

/-- Column presence distributes over row concatenation. -/
theorem hasCol_append (r1 r2 : Row) (c : String) :
    hasCol (r1 ++ r2) c = (hasCol r1 c || hasCol r2 c) :=
  List.any_append

/-- Every row the left join emits binds every merged column. -/
theorem mergeLeft_wf (l r : Frame) (lk rk : String) : Frame.wf (mergeLeft l r lk rk) := by
  intro row hrow c hc
  obtain ⟨lrow, hlrow, hb⟩ := List.mem_flatMap.mp hrow
  have hshape : ∃ gl gr : String → Cell,
      row = l.cols.map (fun c0 => (c0, gl c0)) ++
        r.cols.map (fun c0 =>
          ((if l.cols.contains c0 then c0 ++ "_contract" else c0), gr c0)) := by
    split at hb
    · refine ⟨fun c0 => Row.cell lrow c0, fun _ => none, ?_⟩
      simpa using hb
    · obtain ⟨rrow, hrr, hEq⟩ := List.mem_map.mp hb
      exact ⟨fun c0 => Row.cell lrow c0, fun c0 => Row.cell rrow c0, hEq.symm⟩
  obtain ⟨gl, gr, rfl⟩ := hshape
  have hc2 := (contains_eq_mem _ _).mp hc
  rw [hasCol_append, Bool.or_eq_true]
  rcases List.mem_append.mp hc2 with hmem | hmem
  · exact Or.inl (hasCol_map_pairs _ _ _ ⟨c, hmem, rfl⟩)
  · obtain ⟨c0, hc0, hrn⟩ := List.mem_map.mp hmem
    exact Or.inr (hasCol_map_pairs _ _ _ ⟨c0, hc0, hrn⟩)

/-- Setting a column keeps every bound name and binds the set one. -/
theorem hasCol_set (r : Row) (c c0 : String) (v : Cell)
    (h : hasCol r c0 = true ∨ c0 = c) : hasCol (Row.set r c v) c0 = true := by
  unfold Row.set
  split
  case isTrue hg =>
    rcases h with h | rfl
    · obtain ⟨p, hp, hpc⟩ := List.any_eq_true.mp h
      refine List.any_eq_true.mpr
        ⟨(if p.1 = c then (p.1, v) else p), List.mem_map_of_mem _ hp, ?_⟩
      split <;> simpa using hpc
    · obtain ⟨p, hp, hpc⟩ := List.any_eq_true.mp hg
      refine List.any_eq_true.mpr
        ⟨(if p.1 = c0 then (p.1, v) else p), List.mem_map_of_mem _ hp, ?_⟩
      split <;> simpa using hpc
  case isFalse hg =>
    rw [hasCol_append, Bool.or_eq_true]
    rcases h with h | rfl
    · exact Or.inl h
    · right
      simp [hasCol]

/-- The column list of a column assignment contains the old columns and the
assigned one. -/
theorem contains_setColWith_cols (f : Frame) (c c0 : String) (g : Row → Cell)
    (h : f.cols.contains c0 = true ∨ c0 = c) :
    (setColWith f c g).cols.contains c0 = true := by
  unfold setColWith
  dsimp only
  split
  case isTrue hg =>
    rcases h with h | rfl
    · exact h
    · exact hg
  case isFalse hg =>
    rcases h with h | rfl
    · exact (contains_eq_mem _ _).mpr (List.mem_append.mpr (Or.inl ((contains_eq_mem _ _).mp h)))
    · exact (contains_eq_mem _ _).mpr (List.mem_append.mpr (Or.inr (by simp)))

/-- Conversely, a column of a column assignment is an old column or the
assigned one. -/
theorem contains_setColWith_inv (f : Frame) (c c0 : String) (g : Row → Cell)
    (h : (setColWith f c g).cols.contains c0 = true) :
    f.cols.contains c0 = true ∨ c0 = c := by
  unfold setColWith at h
  dsimp only at h
  split at h
  · exact Or.inl h
  · rcases List.mem_append.mp ((contains_eq_mem _ _).mp h) with hm | hm
    · exact Or.inl ((contains_eq_mem _ _).mpr hm)
    · simp only [List.mem_singleton] at hm
      exact Or.inr hm

/-- Column assignment preserves row/column alignment. -/
theorem wf_setColWith (f : Frame) (c : String) (g : Row → Cell) (h : Frame.wf f) :
    Frame.wf (setColWith f c g) := by
  intro row hrow c0 hc0
  obtain ⟨r, hr, rfl⟩ := List.mem_map.mp hrow
  exact hasCol_set _ _ _ _ ((contains_setColWith_inv f c c0 g hc0).imp_left (h r hr c0))

/-- The vendor-display step preserves row/column alignment. -/
theorem wf_vendorDisplayStep (f : Frame) (h : Frame.wf f) :
    Frame.wf (vendorDisplayStep f) := by
  unfold vendorDisplayStep
  repeat' split
  all_goals exact wf_setColWith _ _ _ h

/-- One guaranteed-column step preserves row/column alignment. -/
theorem wf_ensureColStep (f : Frame) (c : String) (h : Frame.wf f) :
    Frame.wf (ensureColStep f c) := by
  unfold ensureColStep
  split
  · exact h
  · exact wf_setColWith _ _ _ h

/-- The guaranteed-column pass preserves row/column alignment. -/
theorem wf_foldl_ensure (L : List String) (f : Frame) (h : Frame.wf f) :
    Frame.wf (L.foldl ensureColStep f) := by
  induction L generalizing f with
  | nil => exact h
  | cons a L ih => exact ih _ (wf_ensureColStep _ _ h)

/-- One guaranteed-column step keeps existing columns. -/
theorem contains_ensureColStep (f : Frame) (a c : String) (h : f.cols.contains c = true) :
    (ensureColStep f a).cols.contains c = true := by
  unfold ensureColStep
  split
  · exact h
  · exact contains_setColWith_cols _ _ _ _ (Or.inl h)

/-- One guaranteed-column step establishes its own column. -/
theorem contains_ensureColStep_self (f : Frame) (a : String) :
    (ensureColStep f a).cols.contains a = true := by
  unfold ensureColStep
  split
  case isTrue hg => exact hg
  case isFalse hg => exact contains_setColWith_cols _ _ _ _ (Or.inr rfl)

/-- The guaranteed-column pass keeps existing columns. -/
theorem contains_foldl_ensure_of_contains (L : List String) (f : Frame) (c : String)
    (h : f.cols.contains c = true) : (L.foldl ensureColStep f).cols.contains c = true := by
  induction L generalizing f with
  | nil => exact h
  | cons a L ih => exact ih _ (contains_ensureColStep _ _ _ h)

/-- The guaranteed-column pass establishes every column it is given. -/
theorem contains_foldl_ensure_of_mem (L : List String) (f : Frame) (c : String)
    (h : c ∈ L) : (L.foldl ensureColStep f).cols.contains c = true := by
  induction L generalizing f with
  | nil => cases h
  | cons a L ih =>
    rcases List.mem_cons.mp h with rfl | h2
    · exact contains_foldl_ensure_of_contains L (ensureColStep f c) c
        (contains_ensureColStep_self f c)
    · exact ih _ h2

/-- C6: on every workbook the loader accepts, the merged table carries each
of the seven guaranteed columns — `UEI`, `Domain`, `Pool`, `NAICS`, `SIN`,
`ZIP Code`, `Vendor City` — in its schema, and every output row binds each
of them (possibly to the missing marker), so no downstream consumer ever
observes an absent column among these. -/
theorem C6_guaranteed_columns (wb : Workbook) (m : Frame)
    (h : load_oasis_excel wb = Except.ok m) (c : String) (hc : c ∈ guaranteedCols) :
    m.cols.contains c = true ∧ ∀ r ∈ m.rows, hasCol r c = true := by
  unfold load_oasis_excel at h
  split at h
  · exact absurd h (by simp)
  · split at h
    · exact absurd h (by simp)
    · split at h
      · exact absurd h (by simp)
      · injection h with h2
        subst h2
        refine ⟨contains_foldl_ensure_of_mem _ _ _ hc, fun r hr => ?_⟩
        exact wf_foldl_ensure guaranteedCols _
          (wf_vendorDisplayStep _ (mergeLeft_wf _ _ _ _)) r hr c
          (contains_foldl_ensure_of_mem _ _ _ hc)

/-- C6 witness: the guarantee instantiated at a concrete valid workbook and
the column `Domain` (absent from both source sheets), with the conclusions
evaluated. -/
theorem C6_guaranteed_columns_witness :
    mC6.cols.contains "Domain" = true ∧ mC6.rows.all (fun r => hasCol r "Domain") = true := by
  have h := C6_guaranteed_columns (wbKeys "K1" "K1") mC6 (by rfl) "Domain" (by decide)
  exact ⟨h.1, List.all_eq_true.mpr (fun r hr => h.2 r hr)⟩

end Oasis

namespace Oasis

/-- Ground evaluation: trimming is the identity on these clean literals. -/
theorem pyStrip_lit1 : pyStrip "Contract Number" = "Contract Number" := by decide

/-- Ground evaluation of trimming. -/
theorem pyStrip_lit2 : pyStrip "UEI" = "UEI" := by decide

/-- Ground evaluation of trimming. -/
theorem pyStrip_lit3 : pyStrip "Contract #" = "Contract #" := by decide

/-- Ground evaluation of trimming. -/
theorem pyStrip_lit4 : pyStrip "8a" = "8a" := by decide

/-- Ground evaluation of trimming. -/
theorem pyStrip_lit5 : pyStrip "Vendor" = "Vendor" := by decide

/-- Ground evaluation of trimming. -/
theorem pyStrip_lit6 : pyStrip "Vendor Name" = "Vendor Name" := by decide

set_option maxHeartbeats 2000000 in
/-- C1 (amended): the loader applies no normalization to the join-key
columns; the join pairs a pool row with a contract row exactly when their
raw key values are equal, so keys differing only by a trailing ".0" or by
surrounding whitespace are NOT matched (only the `NAICS` / `SIN` columns
receive the trailing-`.0`/trim cleanup).  Here: on a one-row pool sheet
with raw key `pk` and a one-record contract sheet with raw key `ck`, the
merged row carries the contract `UEI` exactly when `pk = ck`, and the
missing marker otherwise. -/
theorem C1_amended (pk ck : String) :
    (load_oasis_excel (wbKeys pk ck)).toOption.map
        (fun m => m.rows.map (fun r => Row.cell r "UEI"))
      = some [if pk = ck then some "U1" else none] := by
  by_cases h : pk = ck
  · subst h
    rw [if_pos rfl]
    simp [load_oasis_excel, wbKeys, contractFrame1, poolFrame1, lookupSheet, poolFramesOf,
      pool_sheet_names, trimCols, setColAll, setColWith, Row.set, hasCol, concatFrames,
      colUnion, Row.reindex, Row.cell, cleanPools, cleanSIN, cleanNAICS, mapCol, mergeLeft,
      vendorDisplayStep, ensureCols, ensureColStep, guaranteedCols, Function.comp,
      List.find?, List.filterMap, List.foldl, List.flatMap, List.any, List.isPrefixOf,
      pyStrip_lit1, pyStrip_lit2, pyStrip_lit3, pyStrip_lit4]
    exact ⟨_, rfl, rfl⟩
  · rw [if_neg h]
    simp [load_oasis_excel, wbKeys, contractFrame1, poolFrame1, lookupSheet, poolFramesOf,
      pool_sheet_names, trimCols, setColAll, setColWith, Row.set, hasCol, concatFrames,
      colUnion, Row.reindex, Row.cell, cleanPools, cleanSIN, cleanNAICS, mapCol, mergeLeft,
      vendorDisplayStep, ensureCols, ensureColStep, guaranteedCols, Function.comp,
      List.find?, List.filterMap, List.foldl, List.flatMap, List.any, List.isPrefixOf,
      pyStrip_lit1, pyStrip_lit2, pyStrip_lit3, pyStrip_lit4, Ne.symm h]
    exact ⟨_, rfl, rfl⟩

set_option maxHeartbeats 2000000 in
/-- C2 (amended): a workbook sheet is loaded as a pool sheet exactly when
its name equals — by exact string equality WITHOUT trimming — one of the
six hard-coded names `8a`, `Small Business`, `Woman Owned SB`,
`Service Disabled Veteran Owned ` (with its literal trailing space),
`HUBZone`, `Unrestricted`; the `Pool` value of every loaded row is the trimmed
sheet name.  A trailing-space-free "Service Disabled Veteran Owned" sheet
is therefore ignored, not recognized. -/
theorem C2_amended (nm : String) :
    (load_oasis_excel (wbNamed nm)).toOption.map
        (fun m => m.rows.map (fun r => Row.cell r "Pool"))
      = (if pool_sheet_names.contains nm then some [some (pyStrip nm)] else none) := by
  by_cases h : nm ∈ pool_sheet_names
  · simp only [pool_sheet_names, List.mem_cons, List.mem_singleton,
      List.not_mem_nil, or_false] at h
    rcases h with rfl | rfl | rfl | rfl | rfl | rfl <;> decide
  · have h0 : pool_sheet_names.contains nm = false := by
      rw [← Bool.not_eq_true]
      exact fun hh => h ((contains_eq_mem _ _).mp hh)
    simp only [pool_sheet_names, List.mem_cons, List.mem_singleton,
      List.not_mem_nil, or_false] at h
    push_neg at h
    obtain ⟨h1, h2, h3, h4, h5, h6⟩ := h
    simp [load_oasis_excel, wbNamed, contractFrame1, poolFrame1, lookupSheet, poolFramesOf,
      pool_sheet_names, Except.toOption, h0, h1, h2, h3, h4, h5, h6]

set_option maxHeartbeats 2000000 in
/-- C4 (amended): `Vendor Display` is the first non-missing value among
`Vendor` then `Vendor Name` — an empty string is a present value and is
taken as-is, never skipped — and when both vendor fields exist but are
missing on a row the result is the missing marker, not the empty string;
the explicit empty-string default occurs exactly when no vendor column
exists in the merged table at all. -/
theorem C4_amended (v w : Cell) :
    (load_oasis_excel (wbVendor v w)).toOption.map
        (fun m => m.rows.map (fun r => Row.cell r "Vendor Display"))
      = some [Option.or v w]
    ∧ (load_oasis_excel (wbKeys "K1" "K1")).toOption.map
        (fun m => m.rows.map (fun r => Row.cell r "Vendor Display"))
      = some [some ""] := by
  refine ⟨?_, by decide⟩
  cases v <;> cases w <;>
    simp [load_oasis_excel, wbVendor, contractFrame1, poolFrameVendor, lookupSheet,
      poolFramesOf, pool_sheet_names, trimCols, setColAll, setColWith, Row.set, hasCol,
      concatFrames, colUnion, Row.reindex, Row.cell, cleanPools, cleanSIN, cleanNAICS,
      mapCol, mergeLeft, vendorDisplayStep, ensureCols, ensureColStep, guaranteedCols,
      Function.comp, List.find?, List.filterMap, List.foldl, List.flatMap, List.any,
      List.isPrefixOf, pyStrip_lit1, pyStrip_lit2, pyStrip_lit3, pyStrip_lit4,
      pyStrip_lit5, pyStrip_lit6]
  all_goals exact ⟨_, rfl, rfl⟩

set_option maxHeartbeats 4000000 in
/-- C5 (amended): the reconciler is a left-preserving equi-join on the RAW
(unnormalized) key values: every pool row yields `max 1 k` output rows,
where `k` counts the contract rows whose raw `Contract Number` equals the
raw pool `Contract #` — one missing-filled row when `k = 0`, one row
per matching contract row (no deduplication) when `k ≥ 1`.  The second
part exhibits this on the full loader with one pool row against two
contract records: zero raw matches give exactly one row with a missing
contract side, and each raw match contributes its own row. -/
theorem C5_amended (pk c1 c2 u1 u2 : String) :
    (∀ (l r : Frame) (lk rk : String),
      (mergeLeft l r lk rk).rows.length
        = (l.rows.map (fun lrow => max 1
            ((r.rows.filter (fun rrow =>
              decide (Row.cell rrow rk = Row.cell lrow lk))).length))).sum)
    ∧ (load_oasis_excel (wbJoin pk c1 c2 u1 u2)).toOption.map
        (fun m => m.rows.map (fun r => Row.cell r "UEI"))
      = some (if ((if c1 = pk then [some u1] else []) ++
            (if c2 = pk then [some u2] else [])).isEmpty
          then [(none : Cell)]
          else (if c1 = pk then [some u1] else []) ++
            (if c2 = pk then [some u2] else [])) := by
  constructor
  · intro l r lk rk
    unfold mergeLeft
    dsimp only
    rw [List.length_flatMap]
    refine congrArg List.sum (List.map_congr_left ?_)
    intro lrow hmem
    dsimp only [Function.comp]
    split
    case isTrue hc =>
      rw [List.isEmpty_iff.mp hc]
      rfl
    case isFalse hc =>
      rw [List.length_map]
      have hne : (r.rows.filter (fun rrow =>
          decide (Row.cell rrow rk = Row.cell lrow lk))) ≠ [] := by
        intro hnil
        exact hc (by rw [hnil]; rfl)
      have hpos := List.length_pos.mpr hne
      omega
  · by_cases h1 : c1 = pk <;> by_cases h2 : c2 = pk
    · subst h1
      subst h2
      simp [load_oasis_excel, wbJoin, contractFrame2, poolFrame1, lookupSheet, poolFramesOf,
        pool_sheet_names, trimCols, setColAll, setColWith, Row.set, hasCol, concatFrames,
        colUnion, Row.reindex, Row.cell, cleanPools, cleanSIN, cleanNAICS, mapCol, mergeLeft,
        vendorDisplayStep, ensureCols, ensureColStep, guaranteedCols, Function.comp,
        List.find?, List.filterMap, List.foldl, List.flatMap, List.any, List.isPrefixOf,
        pyStrip_lit1, pyStrip_lit2, pyStrip_lit3, pyStrip_lit4]
      exact ⟨_, rfl, rfl⟩
    · subst h1
      simp [load_oasis_excel, wbJoin, contractFrame2, poolFrame1, lookupSheet, poolFramesOf,
        pool_sheet_names, trimCols, setColAll, setColWith, Row.set, hasCol, concatFrames,
        colUnion, Row.reindex, Row.cell, cleanPools, cleanSIN, cleanNAICS, mapCol, mergeLeft,
        vendorDisplayStep, ensureCols, ensureColStep, guaranteedCols, Function.comp,
        List.find?, List.filterMap, List.foldl, List.flatMap, List.any, List.isPrefixOf,
        pyStrip_lit1, pyStrip_lit2, pyStrip_lit3, pyStrip_lit4, h2]
      exact ⟨_, rfl, rfl⟩
    · subst h2
      simp [load_oasis_excel, wbJoin, contractFrame2, poolFrame1, lookupSheet, poolFramesOf,
        pool_sheet_names, trimCols, setColAll, setColWith, Row.set, hasCol, concatFrames,
        colUnion, Row.reindex, Row.cell, cleanPools, cleanSIN, cleanNAICS, mapCol, mergeLeft,
        vendorDisplayStep, ensureCols, ensureColStep, guaranteedCols, Function.comp,
        List.find?, List.filterMap, List.foldl, List.flatMap, List.any, List.isPrefixOf,
        pyStrip_lit1, pyStrip_lit2, pyStrip_lit3, pyStrip_lit4, h1]
      exact ⟨_, rfl, rfl⟩
    · simp [load_oasis_excel, wbJoin, contractFrame2, poolFrame1, lookupSheet, poolFramesOf,
        pool_sheet_names, trimCols, setColAll, setColWith, Row.set, hasCol, concatFrames,
        colUnion, Row.reindex, Row.cell, cleanPools, cleanSIN, cleanNAICS, mapCol, mergeLeft,
        vendorDisplayStep, ensureCols, ensureColStep, guaranteedCols, Function.comp,
        List.find?, List.filterMap, List.foldl, List.flatMap, List.any, List.isPrefixOf,
        pyStrip_lit1, pyStrip_lit2, pyStrip_lit3, pyStrip_lit4, h1, h2]
      exact ⟨_, rfl, rfl⟩

/-- C9 (amended): whenever the contract sheet is readable and at least one
pool sheet is found but a join-key column is missing — `Contract #` on the
unioned pool table or `Contract Number` on the trimmed contract sheet —
the load fails with the fixed error message that names both expected
join-key columns; the message does not depend on (and does not list) the
columns actually found, and no merged table is produced. -/
theorem C9_amended (wb : Workbook) (f : Frame)
    (hc : lookupSheet wb "OASIS+Contract Information" = some f)
    (hp : (poolFramesOf wb).isEmpty = false)
    (hkey : (cleanPools (concatFrames (poolFramesOf wb))).cols.contains "Contract #" = false
      ∨ (trimCols f).cols.contains "Contract Number" = false) :
    load_oasis_excel wb = Except.error joinKeyErrMsg
    ∧ strContains joinKeyErrMsg "Contract #" = true
    ∧ strContains joinKeyErrMsg "Contract Number" = true := by
  refine ⟨?_, by decide, by decide⟩
  unfold load_oasis_excel
  rw [hc]
  show (if (poolFramesOf wb).isEmpty = true then
      Except.error "No pool sheets found in the workbook."
    else if (!(cleanPools (concatFrames (poolFramesOf wb))).cols.contains "Contract #"
        || !(trimCols f).cols.contains "Contract Number") = true then
      Except.error joinKeyErrMsg
    else
      Except.ok (ensureCols (vendorDisplayStep (mergeLeft
        (cleanPools (concatFrames (poolFramesOf wb))) (trimCols f)
        "Contract #" "Contract Number")))) = Except.error joinKeyErrMsg
  rcases hkey with hk | hk
  · rw [if_neg (by simp [hp]), if_pos (by rw [hk]; rfl)]
  · rw [if_neg (by simp [hp]), if_pos (by rw [hk]; simp)]

/-- C9 witness: the amended behavior at a concrete workbook whose single
pool sheet has columns `Foo` (and the attached `Pool`) but no
`Contract #`. -/
theorem C9_amended_witness :
    load_oasis_excel wbC9 = Except.error joinKeyErrMsg
    ∧ strContains joinKeyErrMsg "Contract #" = true
    ∧ strContains joinKeyErrMsg "Contract Number" = true := by
  exact C9_amended wbC9 (contractFrame1 "K1" "U1") (by rfl) (by rfl) (Or.inl (by rfl))

end Oasis
